import Mathlib

/-!
Shallow embedding of the `retry` and `roundtrip` packages of the repository.

The retry package exports one function:

  func ExponentialRetry[T any](ctx context.Context, maxRetries uint,
      baseBackoff time.Duration, fn func() (T, error)) (T, error)

We model a Go context by the data the function actually consumes: whether a
deadline is set, an oracle saying for each backoff wait whether the
cancellation channel wins the select race during that wait, and the value of
ctx.Err() once the context is done.  The stateful closure `fn` is modelled as
a function of the 0-indexed invocation number, returning the Go pair
(T, error) as `T × Option E` where `none` is a nil error.  Machine
arithmetic: `maxRetries` is a Go uint; since `attempt` counts up from 0 and
the loop exits at `attempt == maxRetries`, the counter never wraps, so `Nat`
is a faithful model for every uint value.  `time.Duration` is int64, and the
expression `baseBackoff * time.Duration(1<<attempt)` wraps at 64 bits (Go int
is 64-bit here), which we model explicitly with `wrap64`.
-/

/-- Reduce an integer to the signed 64-bit (two-complement, wrapping) value
Go would compute, i.e. into the interval [-2^63, 2^63). -/
def wrap64 (x : Int) : Int := (x + 2 ^ 63) % 2 ^ 64 - 2 ^ 63

/-- Go expression `1 << attempt` where the untyped literal 1 defaults to int
(64-bit): for attempt < 63 this is 2 ^ attempt, at 63 it wraps negative, and
from 64 on the bit is shifted out entirely, which coincides with wrapping
2 ^ attempt to int64. -/
def goShl1 (attempt : Nat) : Int := wrap64 (2 ^ attempt)

/-- Go int64 multiplication of two durations, with 64-bit wrap-around. -/
def goMulDur (a b : Int) : Int := wrap64 (a * b)

/-- The value of ctx.Err() once a Go context is done: either
context.DeadlineExceeded or another cancellation cause (context.Canceled). -/
inductive CtxErr where
  | deadlineExceeded
  | canceled
deriving DecidableEq, Repr

/-- Model of the Go context as consumed by ExponentialRetry:
`hasDeadline` is the ok result of ctx.Deadline(); `cancelDuringWait i` says
whether the case `<-ctx.Done()` wins the select race during the backoff wait
that follows failed attempt i; `ctxErr` is ctx.Err() at that point. -/
structure GoContext where
  hasDeadline : Bool
  cancelDuringWait : Nat → Bool
  ctxErr : CtxErr

/-- The Go error values ExponentialRetry can return.  `noDeadline` models
errors.New("no deadline set by caller"); `opErr e` is an error value returned
by the operation, carried verbatim; `fromCtx c` is the context error
ctx.Err(); `retryFailed` models errors.New("exponential retry failed"). -/
inductive GoErr (E : Type) where
  | noDeadline
  | opErr (e : E)
  | fromCtx (c : CtxErr)
  | retryFailed
deriving DecidableEq, Repr

/-- Messages of the two errors the retry package itself synthesizes with
errors.New; operation errors and context errors carry their own. -/
def errMessage {E : Type} : GoErr E → Option String
  | .noDeadline => some "no deadline set by caller"
  | .retryFailed => some "exponential retry failed"
  | _ => none

/-- The check errors.Is(err, context.DeadlineExceeded) on the errors of the
model: operation errors are opaque to the retry package and are never the
context sentinel. -/
def errorsIsDeadlineExceeded {E : Type} : GoErr E → Bool
  | .fromCtx .deadlineExceeded => true
  | _ => false

/-- Observable outcome of one call to ExponentialRetry: how many times the
operation was invoked, the backoff durations of the waits that completed (a
wait interrupted by cancellation is not in the list), the slog.Info messages
emitted, and the returned pair (value, error) with `none` for a nil error. -/
structure RetryTrace (T E : Type) where
  invocations : Nat
  waits : List Int
  logs : List String
  value : T
  error : Option (GoErr E)
deriving DecidableEq, Repr

/-- The loop `for attempt := uint(0); attempt <= maxRetries; attempt++` of
ExponentialRetry, embedded with explicit fuel: `remaining` is the number of
iterations the loop guard still allows, maintained as
attempt + remaining = maxRetries + 1, so `remaining = 0` is the guard
`attempt <= maxRetries` failing and falls through to the line
`return zero, errors.New("exponential retry failed")`. -/
def retryLoop {T E : Type} (zero : T) (ctx : GoContext) (maxRetries : Nat)
    (baseBackoff : Int) (fn : Nat → T × Option E) :
    Nat → Nat → RetryTrace T E
  | _, 0 => ⟨0, [], [], zero, some .retryFailed⟩
  | attempt, remaining + 1 =>
    match fn attempt with
    | (result, none) => ⟨1, [], [], result, none⟩
    | (_, some e) =>
      if attempt = maxRetries then
        ⟨1, [], [], zero, some (.opErr e)⟩
      else
        let backoff := goMulDur baseBackoff (goShl1 attempt)
        if ctx.cancelDuringWait attempt then
          ⟨1, [],
            [if ctx.ctxErr = .deadlineExceeded then "deadline exceeded"
             else "canceled or timeout"],
            zero, some (.fromCtx ctx.ctxErr)⟩
        else
          let rest :=
            retryLoop zero ctx maxRetries baseBackoff fn (attempt + 1) remaining
          ⟨1 + rest.invocations, backoff :: rest.waits, rest.logs,
            rest.value, rest.error⟩

/-- Embedding of ExponentialRetry (src/retry/retry.go).  `zero` is the Go
zero value of the type parameter T (`var zero T`). -/
def ExponentialRetry {T E : Type} (zero : T) (ctx : GoContext)
    (maxRetries : Nat) (baseBackoff : Int) (fn : Nat → T × Option E) :
    RetryTrace T E :=
  if !ctx.hasDeadline then ⟨0, [], [], zero, some .noDeadline⟩
  else retryLoop zero ctx maxRetries baseBackoff fn 0 (maxRetries + 1)

/-!
Embedding of the roundtrip package.  HTTP responses are opaque values of a
type parameter R (the code never inspects them); the *testing.T pointer is
modelled by whether it is non-nil, and a t.Errorf call is reported in the
result as the index it would format into its message.
-/

/-- The package-level sentinel errors.New("no mock response available"). -/
inductive RTErr where
  | noMockResponse
deriving DecidableEq, Repr

/-- Model of var ErrNoMockResponse (src/roundtrip/roundtrip.go line 9). -/
def ErrNoMockResponse : RTErr := .noMockResponse

/-- Model of the TestingRoundTripper struct: the mock responses, the replay
index (a Go int, but only ever 0 or incremented, hence Nat), and whether a
*testing.T was attached via WithTest. -/
structure TestingRoundTripper (R : Type) where
  responses : List R
  index : Nat
  hasT : Bool
deriving DecidableEq, Repr

/-- Model of (srt *TestingRoundTripper) WithTest. -/
def WithTest {R : Type} (srt : TestingRoundTripper R) : TestingRoundTripper R :=
  { srt with hasT := true }

/-- Model of (srt *TestingRoundTripper) WithMockResponses. -/
def WithMockResponses {R : Type} (srt : TestingRoundTripper R)
    (responses : List R) : TestingRoundTripper R :=
  { srt with responses := responses }

/-- Model of (srt *TestingRoundTripper) AddMockResponse. -/
def AddMockResponse {R : Type} (srt : TestingRoundTripper R) (response : R) :
    TestingRoundTripper R :=
  { srt with responses := srt.responses ++ [response] }

/-- What one call to RoundTrip returns: the response pointer (none = nil),
the error (none = nil), and the index a t.Errorf call reported, if any. -/
structure RoundTripResult (R : Type) where
  response : Option R
  err : Option RTErr
  errorfAt : Option Nat
deriving DecidableEq, Repr

/-- Embedding of (srt *TestingRoundTripper) RoundTrip
(src/roundtrip/roundtrip.go lines 33-45): the receiver is mutated through a
pointer, modelled by returning the new state alongside the result. -/
def RoundTrip {R : Type} (srt : TestingRoundTripper R) :
    RoundTripResult R × TestingRoundTripper R :=
  if srt.index ≥ srt.responses.length then
    (⟨none, some ErrNoMockResponse,
      if srt.hasT then some srt.index else none⟩, srt)
  else
    (⟨srt.responses.get? srt.index, none, none⟩,
      { srt with index := srt.index + 1 })

/-- State of a TestingRoundTripper after n successive RoundTrip calls. -/
def callN {R : Type} (srt : TestingRoundTripper R) : Nat → TestingRoundTripper R
  | 0 => srt
  | n + 1 => (RoundTrip (callN srt n)).2

/-!
Helper lemmas about the retry loop.
-/

/-- The loop makes at most `remaining` invocations. -/
theorem retryLoop_invocations_le {T E : Type} (zero : T) (ctx : GoContext)
    (m : Nat) (b : Int) (fn : Nat → T × Option E) :
    ∀ (r a : Nat), (retryLoop zero ctx m b fn a r).invocations ≤ r := by
  intro r
  induction r with
  | zero => intro a; simp [retryLoop]
  | succ n ih =>
    intro a
    rcases hfn : fn a with ⟨v, oe⟩
    rcases oe with _ | e
    · simp [retryLoop, hfn]
    · by_cases ha : a = m
      · subst ha; simp [retryLoop, hfn]
      · cases hc : ctx.cancelDuringWait a
        · have := ih (a + 1)
          simp [retryLoop, hfn, ha, hc]
          omega
        · simp [retryLoop, hfn, ha, hc]

/-- As long as the loop guard can still fail only at attempt = m + 1, the
fall-through error is never produced. -/
theorem retryLoop_no_fallthrough {T E : Type} (zero : T) (ctx : GoContext)
    (m : Nat) (b : Int) (fn : Nat → T × Option E) :
    ∀ (r a : Nat), a + r = m + 1 → a ≤ m →
    (retryLoop zero ctx m b fn a r).error ≠ some .retryFailed := by
  intro r
  induction r with
  | zero => intro a h1 h2; omega
  | succ n ih =>
    intro a h1 h2
    rcases hfn : fn a with ⟨v, oe⟩
    rcases oe with _ | e
    · simp [retryLoop, hfn]
    · by_cases ha : a = m
      · subst ha; simp [retryLoop, hfn]
      · cases hc : ctx.cancelDuringWait a
        · have hrec := ih (a + 1) (by omega) (by omega)
          simp [retryLoop, hfn, ha, hc]
          exact hrec
        · simp [retryLoop, hfn, ha, hc]

/-- Whenever the loop returns a non-nil error, the returned value is the Go
zero value. -/
theorem retryLoop_error_value {T E : Type} (zero : T) (ctx : GoContext)
    (m : Nat) (b : Int) (fn : Nat → T × Option E) :
    ∀ (r a : Nat) (ge : GoErr E),
    (retryLoop zero ctx m b fn a r).error = some ge →
    (retryLoop zero ctx m b fn a r).value = zero := by
  intro r
  induction r with
  | zero => intro a ge _; simp [retryLoop]
  | succ n ih =>
    intro a ge h
    rcases hfn : fn a with ⟨v, oe⟩
    rcases oe with _ | e
    · simp [retryLoop, hfn] at h
    · by_cases ha : a = m
      · subst ha; simp [retryLoop, hfn]
      · cases hc : ctx.cancelDuringWait a
        · simp [retryLoop, hfn, ha, hc] at h ⊢
          exact ih (a + 1) ge h
        · simp [retryLoop, hfn, ha, hc]

/-- C1: if the supplied context carries no deadline, ExponentialRetry returns
the configuration error whose message is "no deadline set by caller" and
invokes the operation zero times, for every maxRetries, baseBackoff and
operation. -/
theorem C1_no_deadline_config_error {T E : Type} (zero : T) (ctx : GoContext)
    (maxRetries : Nat) (baseBackoff : Int) (fn : Nat → T × Option E)
    (h : ctx.hasDeadline = false) :
    (ExponentialRetry zero ctx maxRetries baseBackoff fn).error
        = some .noDeadline ∧
    errMessage (GoErr.noDeadline (E := E)) = some "no deadline set by caller" ∧
    (ExponentialRetry zero ctx maxRetries baseBackoff fn).invocations = 0 := by
  simp [ExponentialRetry, h, errMessage]

theorem C1_witness :
    (ExponentialRetry (0 : Nat) ⟨false, fun _ => false, .canceled⟩ 3 5
        (fun _ => ((0 : Nat), (none : Option Nat)))).error = some .noDeadline ∧
    errMessage (GoErr.noDeadline (E := Nat)) = some "no deadline set by caller" ∧
    (ExponentialRetry (0 : Nat) ⟨false, fun _ => false, .canceled⟩ 3 5
        (fun _ => ((0 : Nat), (none : Option Nat)))).invocations = 0 :=
  C1_no_deadline_config_error 0 ⟨false, fun _ => false, .canceled⟩ 3 5
    (fun _ => (0, none)) rfl

/-- C2: for every maxRetries, baseBackoff, context with a deadline and
operation, one call invokes the operation at most maxRetries + 1 times, on
every return path. -/
theorem C2_at_most_maxRetries_succ {T E : Type} (zero : T) (ctx : GoContext)
    (maxRetries : Nat) (baseBackoff : Int) (fn : Nat → T × Option E)
    (h : ctx.hasDeadline = true) :
    (ExponentialRetry zero ctx maxRetries baseBackoff fn).invocations
      ≤ maxRetries + 1 := by
  simp only [ExponentialRetry, h, Bool.not_true, Bool.false_eq_true, if_false]
  exact retryLoop_invocations_le zero ctx maxRetries baseBackoff fn
    (maxRetries + 1) 0

theorem C2_witness :
    (ExponentialRetry (0 : Nat) ⟨true, fun _ => false, .canceled⟩ 3 5
        (fun _ => ((0 : Nat), some "x"))).invocations ≤ 3 + 1 :=
  C2_at_most_maxRetries_succ 0 ⟨true, fun _ => false, .canceled⟩ 3 5
    (fun _ => (0, some "x")) rfl

/-- C7: the defensive fallback branch after the loop is unreachable: for
every context, maxRetries, baseBackoff and operation, ExponentialRetry never
returns the generic "exponential retry failed" error. -/
theorem C7_fallback_unreachable {T E : Type} (zero : T) (ctx : GoContext)
    (maxRetries : Nat) (baseBackoff : Int) (fn : Nat → T × Option E) :
    (ExponentialRetry zero ctx maxRetries baseBackoff fn).error
      ≠ some .retryFailed := by
  cases hd : ctx.hasDeadline
  · simp [ExponentialRetry, hd]
  · simp only [ExponentialRetry, hd, Bool.not_true, Bool.false_eq_true,
      if_false]
    exact retryLoop_no_fallthrough zero ctx maxRetries baseBackoff fn
      (maxRetries + 1) 0 (by omega) (by omega)

theorem C7_witness :
    (ExponentialRetry (0 : Nat) ⟨true, fun _ => false, .canceled⟩ 2 5
        (fun _ => ((0 : Nat), some "x"))).error ≠ some .retryFailed :=
  C7_fallback_unreachable 0 ⟨true, fun _ => false, .canceled⟩ 2 5
    (fun _ => (0, some "x"))

/-- C8: with maxRetries = 3, a context with a deadline whose cancellation
never fires, and an operation that always fails with the error "boom",
ExponentialRetry returns that very error and the operation is invoked exactly
4 times. -/
theorem C8_scenario_boom :
    (ExponentialRetry (0 : Nat) ⟨true, fun _ => false, .canceled⟩ 3 5
        (fun _ => ((0 : Nat), some "boom"))).error
      = some (.opErr "boom") ∧
    (ExponentialRetry (0 : Nat) ⟨true, fun _ => false, .canceled⟩ 3 5
        (fun _ => ((0 : Nat), some "boom"))).invocations = 4 := by
  constructor
  · rfl
  · rfl

/-- C9: on every error-returning path of ExponentialRetry, the returned value
is the Go zero value of T: a result from an earlier attempt never accompanies
an error. -/
theorem C9_zero_value_on_error {T E : Type} (zero : T) (ctx : GoContext)
    (maxRetries : Nat) (baseBackoff : Int) (fn : Nat → T × Option E)
    (ge : GoErr E)
    (h : (ExponentialRetry zero ctx maxRetries baseBackoff fn).error = some ge) :
    (ExponentialRetry zero ctx maxRetries baseBackoff fn).value = zero := by
  cases hd : ctx.hasDeadline
  · simp [ExponentialRetry, hd]
  · simp only [ExponentialRetry, hd, Bool.not_true, Bool.false_eq_true,
      if_false] at h ⊢
    exact retryLoop_error_value zero ctx maxRetries baseBackoff fn
      (maxRetries + 1) 0 ge h

theorem C9_witness :
    (ExponentialRetry (5 : Nat) ⟨false, fun _ => false, .canceled⟩ 1 1
        (fun _ => ((9 : Nat), (none : Option Nat)))).value = 5 :=
  C9_zero_value_on_error 5 ⟨false, fun _ => false, .canceled⟩ 1 1
    (fun _ => (9, none)) .noDeadline rfl

/-- If the operation fails and the wait completes at every attempt before k,
and invocation k succeeds with v, the loop started at any a ≤ k returns v
with a nil error after k + 1 - a invocations and k - a completed waits. -/
theorem retryLoop_first_success {T E : Type} (zero : T) (ctx : GoContext)
    (m : Nat) (b : Int) (fn : Nat → T × Option E) (k : Nat) (v : T)
    (hok : fn k = (v, none))
    (hfail : ∀ j, j < k → ((fn j).2).isSome = true)
    (hnc : ∀ j, j < k → ctx.cancelDuringWait j = false) :
    ∀ (r a : Nat), a + r = m + 1 → a ≤ k → k ≤ m →
    (retryLoop zero ctx m b fn a r).value = v ∧
    (retryLoop zero ctx m b fn a r).error = none ∧
    (retryLoop zero ctx m b fn a r).invocations = k + 1 - a ∧
    (retryLoop zero ctx m b fn a r).waits.length = k - a := by
  intro r
  induction r with
  | zero => intro a h1 h2 h3; omega
  | succ n ih =>
    intro a h1 h2 h3
    by_cases hak : a = k
    · subst hak
      simp [retryLoop, hok]
    · have halt : a < k := lt_of_le_of_ne h2 hak
      have hsome := hfail a halt
      rcases hfn : fn a with ⟨w, oe⟩
      rw [hfn] at hsome
      rcases oe with _ | e
      · simp at hsome
      · have ham : a ≠ m := by omega
        have hca := hnc a halt
        obtain ⟨hv, he, hi, hw⟩ := ih (a + 1) (by omega) (by omega) h3
        simp [retryLoop, hfn, ham, hca, hv, he, hi, hw]
        omega

/-- If every invocation through m fails with errf and every wait completes,
the loop started at any a ≤ m returns the error of invocation m verbatim
after m + 1 - a invocations. -/
theorem retryLoop_exhaust {T E : Type} (zero : T) (ctx : GoContext)
    (m : Nat) (b : Int) (fn : Nat → T × Option E) (errf : Nat → E)
    (hfail : ∀ j, j ≤ m → (fn j).2 = some (errf j))
    (hnc : ∀ j, j < m → ctx.cancelDuringWait j = false) :
    ∀ (r a : Nat), a + r = m + 1 → a ≤ m →
    (retryLoop zero ctx m b fn a r).error = some (.opErr (errf m)) ∧
    (retryLoop zero ctx m b fn a r).invocations = m + 1 - a := by
  intro r
  induction r with
  | zero => intro a h1 h2; omega
  | succ n ih =>
    intro a h1 h2
    rcases hfn : fn a with ⟨w, oe⟩
    have h2a := hfail a h2
    rw [hfn] at h2a
    simp only at h2a
    subst h2a
    by_cases ham : a = m
    · subst ham
      simp [retryLoop, hfn]
    · have hca := hnc a (by omega)
      obtain ⟨he, hi⟩ := ih (a + 1) (by omega) (by omega)
      simp [retryLoop, hfn, ham, hca, he, hi]
      omega

/-- If the operation fails at every attempt through w, each wait before w
completes, and cancellation wins the race during the wait after attempt w,
the loop started at any a ≤ w returns the context error after w + 1 - a
invocations. -/
theorem retryLoop_cancel {T E : Type} (zero : T) (ctx : GoContext)
    (m : Nat) (b : Int) (fn : Nat → T × Option E) (w : Nat)
    (hw : w < m)
    (hfail : ∀ j, j ≤ w → ((fn j).2).isSome = true)
    (hnc : ∀ j, j < w → ctx.cancelDuringWait j = false)
    (hc : ctx.cancelDuringWait w = true) :
    ∀ (r a : Nat), a + r = m + 1 → a ≤ w →
    (retryLoop zero ctx m b fn a r).error = some (.fromCtx ctx.ctxErr) ∧
    (retryLoop zero ctx m b fn a r).invocations = w + 1 - a ∧
    (retryLoop zero ctx m b fn a r).value = zero := by
  intro r
  induction r with
  | zero => intro a h1 h2; omega
  | succ n ih =>
    intro a h1 h2
    have hsome := hfail a h2
    rcases hfn : fn a with ⟨x, oe⟩
    rw [hfn] at hsome
    rcases oe with _ | e
    · simp at hsome
    · by_cases haw : a = w
      · subst haw
        have ham : a ≠ m := by omega
        simp [retryLoop, hfn, ham, hc]
      · have halt : a < w := lt_of_le_of_ne h2 haw
        have ham : a ≠ m := by omega
        have hca := hnc a halt
        obtain ⟨he, hi, hv⟩ := ih (a + 1) (by omega) (by omega)
        simp [retryLoop, hfn, ham, hca, he, hi, hv]
        omega

/-- C3: if the context has a deadline, the waits before invocation k all
complete, and the operation first succeeds on invocation k (k ≤ maxRetries,
failing on every earlier one), ExponentialRetry returns that success value
with a nil error after exactly k + 1 invocations, and no backoff wait occurs
after the successful invocation (exactly k waits happen in total). -/
theorem C3_first_success_exact {T E : Type} (zero : T) (ctx : GoContext)
    (maxRetries : Nat) (baseBackoff : Int) (fn : Nat → T × Option E)
    (k : Nat) (v : T)
    (hd : ctx.hasDeadline = true) (hk : k ≤ maxRetries)
    (hok : fn k = (v, none))
    (hfail : ∀ j, j < k → ((fn j).2).isSome = true)
    (hnc : ∀ j, j < k → ctx.cancelDuringWait j = false) :
    (ExponentialRetry zero ctx maxRetries baseBackoff fn).value = v ∧
    (ExponentialRetry zero ctx maxRetries baseBackoff fn).error = none ∧
    (ExponentialRetry zero ctx maxRetries baseBackoff fn).invocations
        = k + 1 ∧
    (ExponentialRetry zero ctx maxRetries baseBackoff fn).waits.length = k := by
  have h := retryLoop_first_success zero ctx maxRetries baseBackoff fn k v
    hok hfail hnc (maxRetries + 1) 0 (by omega) (by omega) hk
  simpa [ExponentialRetry, hd] using h

theorem C3_witness :
    (ExponentialRetry (0 : Nat) ⟨true, fun _ => false, .canceled⟩ 2 5
        (fun j => if j = 0 then ((0 : Nat), some "e") else (7, none))).value
        = 7 ∧
    (ExponentialRetry (0 : Nat) ⟨true, fun _ => false, .canceled⟩ 2 5
        (fun j => if j = 0 then ((0 : Nat), some "e") else (7, none))).error
        = none ∧
    (ExponentialRetry (0 : Nat) ⟨true, fun _ => false, .canceled⟩ 2 5
        (fun j => if j = 0 then ((0 : Nat), some "e") else (7, none))).invocations
        = 2 ∧
    (ExponentialRetry (0 : Nat) ⟨true, fun _ => false, .canceled⟩ 2 5
        (fun j => if j = 0 then ((0 : Nat), some "e") else (7, none))).waits.length
        = 1 :=
  C3_first_success_exact 0 ⟨true, fun _ => false, .canceled⟩ 2 5
    (fun j => if j = 0 then (0, some "e") else (7, none)) 1 7 rfl
    (by decide) rfl (by decide) (by decide)

/-- C4: if the context has a deadline, no cancellation fires during any
backoff wait, and the operation fails on every invocation from 0 through
maxRetries, ExponentialRetry returns exactly the error produced by the final
invocation, unwrapped, after maxRetries + 1 invocations. -/
theorem C4_last_error_verbatim {T E : Type} (zero : T) (ctx : GoContext)
    (maxRetries : Nat) (baseBackoff : Int) (fn : Nat → T × Option E)
    (errf : Nat → E)
    (hd : ctx.hasDeadline = true)
    (hfail : ∀ j, j ≤ maxRetries → (fn j).2 = some (errf j))
    (hnc : ∀ j, j < maxRetries → ctx.cancelDuringWait j = false) :
    (ExponentialRetry zero ctx maxRetries baseBackoff fn).error
        = some (.opErr (errf maxRetries)) ∧
    (ExponentialRetry zero ctx maxRetries baseBackoff fn).invocations
        = maxRetries + 1 := by
  have h := retryLoop_exhaust zero ctx maxRetries baseBackoff fn errf
    hfail hnc (maxRetries + 1) 0 (by omega) (by omega)
  simpa [ExponentialRetry, hd] using h

theorem C4_witness :
    (ExponentialRetry (0 : Nat) ⟨true, fun _ => false, .canceled⟩ 1 5
        (fun _ => ((0 : Nat), some "boom2"))).error
        = some (.opErr "boom2") ∧
    (ExponentialRetry (0 : Nat) ⟨true, fun _ => false, .canceled⟩ 1 5
        (fun _ => ((0 : Nat), some "boom2"))).invocations = 2 :=
  C4_last_error_verbatim 0 ⟨true, fun _ => false, .canceled⟩ 1 5
    (fun _ => (0, some "boom2")) (fun _ => "boom2") rfl
    (by decide) (by decide)

/-- C5: if the context has a deadline, the operation fails on the first
w + 1 invocations, the waits before w complete, and the cancellation signal
wins the race during the backoff wait after attempt w (w < maxRetries),
ExponentialRetry aborts with the context error ctx.Err() — which satisfies
the is-deadline-exceeded check when the deadline elapsed — the last operation
error is discarded (the returned value is the zero value, the error the
context one), and the operation is never invoked after that point:
exactly w + 1 invocations happen. -/
theorem C5_cancel_during_wait {T E : Type} (zero : T) (ctx : GoContext)
    (maxRetries : Nat) (baseBackoff : Int) (fn : Nat → T × Option E)
    (w : Nat)
    (hd : ctx.hasDeadline = true) (hw : w < maxRetries)
    (hfail : ∀ j, j ≤ w → ((fn j).2).isSome = true)
    (hnc : ∀ j, j < w → ctx.cancelDuringWait j = false)
    (hc : ctx.cancelDuringWait w = true) :
    (ExponentialRetry zero ctx maxRetries baseBackoff fn).error
        = some (.fromCtx ctx.ctxErr) ∧
    (ExponentialRetry zero ctx maxRetries baseBackoff fn).invocations
        = w + 1 ∧
    (ExponentialRetry zero ctx maxRetries baseBackoff fn).value = zero ∧
    (ctx.ctxErr = .deadlineExceeded →
      errorsIsDeadlineExceeded (GoErr.fromCtx (E := E) ctx.ctxErr) = true) := by
  have h := retryLoop_cancel zero ctx maxRetries baseBackoff fn w hw hfail hnc
    hc (maxRetries + 1) 0 (by omega) (by omega)
  simp only [ExponentialRetry, hd, Bool.not_true, Bool.false_eq_true,
    if_false] at h ⊢
  obtain ⟨he, hi, hv⟩ := h
  refine ⟨he, by omega, hv, ?_⟩
  intro hde
  simp [errorsIsDeadlineExceeded, hde]

theorem C5_witness :
    (ExponentialRetry (0 : Nat) ⟨true, fun i => i = 0, .deadlineExceeded⟩ 2 5
        (fun _ => ((0 : Nat), some "transient"))).error
        = some (.fromCtx .deadlineExceeded) ∧
    (ExponentialRetry (0 : Nat) ⟨true, fun i => i = 0, .deadlineExceeded⟩ 2 5
        (fun _ => ((0 : Nat), some "transient"))).invocations = 1 ∧
    (ExponentialRetry (0 : Nat) ⟨true, fun i => i = 0, .deadlineExceeded⟩ 2 5
        (fun _ => ((0 : Nat), some "transient"))).value = 0 ∧
    (CtxErr.deadlineExceeded = CtxErr.deadlineExceeded →
      errorsIsDeadlineExceeded
        (GoErr.fromCtx (E := String) CtxErr.deadlineExceeded) = true) :=
  C5_cancel_during_wait 0 ⟨true, fun i => i = 0, .deadlineExceeded⟩ 2 5
    (fun _ => (0, some "transient")) 0 rfl (by decide) (by decide)
    (by decide) (by decide)

/-- Integers already in the signed 64-bit range are fixed by the wrap. -/
theorem wrap64_eq_of_range (x : Int) (h0 : (0 : Int) ≤ x) (h1 : x < 2 ^ 63) :
    wrap64 x = x := by
  have h63 : (2 : Int) ^ 63 = 9223372036854775808 := by norm_num
  have h64 : (2 : Int) ^ 64 = 18446744073709551616 := by norm_num
  unfold wrap64
  rw [h63] at h1
  rw [h63, h64, Int.emod_eq_of_lt (by omega) (by omega)]
  omega

/-- When the mathematical product fits under 2^63, the Go computation
baseBackoff * time.Duration(1<<i) is exact. -/
theorem goMulDur_no_overflow (b : Int) (i : Nat) (hb : 0 ≤ b)
    (hov : b * 2 ^ i < 2 ^ 63) :
    goMulDur b (goShl1 i) = b * 2 ^ i := by
  rcases hb.lt_or_eq with hpos | hzero
  · have h2i : (0 : Int) < 2 ^ i := by positivity
    have hle : (2 : Int) ^ i ≤ b * 2 ^ i :=
      le_mul_of_one_le_left (le_of_lt h2i) hpos
    have hilt : (2 : Int) ^ i < 2 ^ 63 := lt_of_le_of_lt hle hov
    rw [goShl1, wrap64_eq_of_range _ (le_of_lt h2i) hilt, goMulDur,
      wrap64_eq_of_range _ (mul_nonneg hb (le_of_lt h2i)) hov]
  · rw [← hzero]
    norm_num [goMulDur, goShl1, wrap64]

/-- If the run reaches the backoff wait after attempt i and that wait
completes, the i-th recorded wait is the Go product of baseBackoff with
1 << i. -/
theorem retryLoop_waits_get {T E : Type} (zero : T) (ctx : GoContext)
    (m : Nat) (b : Int) (fn : Nat → T × Option E) (i : Nat)
    (hi : i < m)
    (hfail : ∀ j, j ≤ i → ((fn j).2).isSome = true)
    (hnc : ∀ j, j ≤ i → ctx.cancelDuringWait j = false) :
    ∀ (r a : Nat), a + r = m + 1 → a ≤ i →
    (retryLoop zero ctx m b fn a r).waits.get? (i - a)
      = some (goMulDur b (goShl1 i)) := by
  intro r
  induction r with
  | zero => intro a h1 h2; omega
  | succ n ih =>
    intro a h1 h2
    have hsome := hfail a (by omega)
    rcases hfn : fn a with ⟨x, oe⟩
    rw [hfn] at hsome
    rcases oe with _ | e
    · simp at hsome
    · have ham : a ≠ m := by omega
      have hca := hnc a (by omega)
      simp only [retryLoop, hfn, ham, if_false, hca, Bool.false_eq_true]
      by_cases hai : a = i
      · subst hai
        simp
      · have hsub : i - a = (i - (a + 1)) + 1 := by omega
        rw [hsub]
        simp only [List.get?_cons_succ]
        exact ih (a + 1) (by omega) (by omega)

/-- C6 counterexample: with maxRetries = 3, baseBackoff = 2^62 and an
operation failing on every invocation, the wait recorded between attempt 2
and attempt 3 is 0 — the 64-bit product wrapped — while the claimed value
baseBackoff * 2^2 = 2^64 is not 0.  The claim as stated is false for this
input. -/
theorem C6_counterexample :
    (ExponentialRetry (0 : Nat) ⟨true, fun _ => false, .canceled⟩ 3 (2 ^ 62)
        (fun _ => ((0 : Nat), some (0 : Nat)))).waits.get? 2 = some 0 ∧
    (2 : Int) ^ 62 * 2 ^ 2 ≠ 0 := by
  constructor
  · decide
  · decide

/-- C6 amended: for every attempt index i < maxRetries whose wait the run
reaches and completes, the backoff waited between attempt i and attempt i+1
is the 64-bit wrapping product of baseBackoff with the Go expression 1 << i;
whenever baseBackoff ≥ 0 and baseBackoff * 2^i < 2^63 (no int64 overflow)
this equals the exact exponential value baseBackoff * 2^i. -/
theorem C6_backoff_formula {T E : Type} (zero : T) (ctx : GoContext)
    (maxRetries : Nat) (baseBackoff : Int) (fn : Nat → T × Option E)
    (i : Nat)
    (hd : ctx.hasDeadline = true) (hi : i < maxRetries)
    (hfail : ∀ j, j ≤ i → ((fn j).2).isSome = true)
    (hnc : ∀ j, j ≤ i → ctx.cancelDuringWait j = false)
    (hb : 0 ≤ baseBackoff) (hov : baseBackoff * 2 ^ i < 2 ^ 63) :
    (ExponentialRetry zero ctx maxRetries baseBackoff fn).waits.get? i
      = some (baseBackoff * 2 ^ i) := by
  have h := retryLoop_waits_get zero ctx maxRetries baseBackoff fn i hi hfail
    hnc (maxRetries + 1) 0 (by omega) (by omega)
  rw [Nat.sub_zero] at h
  simp only [ExponentialRetry, hd, Bool.not_true, Bool.false_eq_true,
    if_false]
  rw [h, goMulDur_no_overflow baseBackoff i hb hov]

theorem C6_witness :
    (ExponentialRetry (0 : Nat) ⟨true, fun _ => false, .canceled⟩ 2 5
        (fun _ => ((0 : Nat), some "fail"))).waits.get? 1
      = some (5 * 2 ^ 1) :=
  C6_backoff_formula 0 ⟨true, fun _ => false, .canceled⟩ 2 5
    (fun _ => (0, some "fail")) 1 rfl (by decide) (by decide) (by decide)
    (by decide) (by decide)

/-- RoundTrip on an in-bounds index: returns the current response with nil
error and advances the index by one. -/
theorem RoundTrip_hit {R : Type} (srt : TestingRoundTripper R)
    (h : srt.index < srt.responses.length) :
    RoundTrip srt = (⟨srt.responses.get? srt.index, none, none⟩,
      { srt with index := srt.index + 1 }) := by
  rw [RoundTrip, if_neg (by omega)]

/-- RoundTrip on an exhausted index: returns nil with ErrNoMockResponse,
reports to the testing.T when present, and leaves the state unchanged. -/
theorem RoundTrip_miss {R : Type} (srt : TestingRoundTripper R)
    (h : srt.responses.length ≤ srt.index) :
    RoundTrip srt = (⟨none, some ErrNoMockResponse,
      if srt.hasT then some srt.index else none⟩, srt) := by
  rw [RoundTrip, if_pos (by omega)]

/-- After k calls starting from a freshly configured tripper, the responses
are untouched and the index is min k (number of responses). -/
theorem callN_state {R : Type} (rs : List R) (ht : Bool) (k : Nat) :
    (callN ⟨rs, 0, ht⟩ k).responses = rs ∧
    (callN ⟨rs, 0, ht⟩ k).hasT = ht ∧
    (callN ⟨rs, 0, ht⟩ k).index = min k rs.length := by
  induction k with
  | zero => simp [callN]
  | succ n ih =>
    obtain ⟨hr, hT, hi⟩ := ih
    by_cases hcase : (callN ⟨rs, 0, ht⟩ n).index <
        (callN ⟨rs, 0, ht⟩ n).responses.length
    · rw [callN, RoundTrip_hit _ hcase]
      refine ⟨hr, hT, ?_⟩
      rw [hr, hi] at hcase
      simp only
      omega
    · push_neg at hcase
      rw [callN, RoundTrip_miss _ hcase]
      refine ⟨hr, hT, ?_⟩
      rw [hr, hi] at hcase
      rw [hi]
      omega

/-- C10: RoundTrip replays the configured responses in order.  Starting from
a tripper configured with WithMockResponses, the k-th call (0-indexed)
returns the k-th stored response with a nil error and increments the index by
exactly one as long as k is below the number of responses; once the index
has reached the number of responses, every further call returns nil together
with ErrNoMockResponse and leaves the whole state (responses and index)
unchanged. -/
theorem C10_roundtrip_replay {R : Type} (rs : List R) (ht : Bool) (k : Nat) :
    (k < rs.length →
      (RoundTrip (callN (WithMockResponses ⟨[], 0, ht⟩ rs) k)).1.response
          = rs.get? k ∧
      (RoundTrip (callN (WithMockResponses ⟨[], 0, ht⟩ rs) k)).1.err
          = none ∧
      ((RoundTrip (callN (WithMockResponses ⟨[], 0, ht⟩ rs) k)).2).index
          = (callN (WithMockResponses ⟨[], 0, ht⟩ rs) k).index + 1 ∧
      ((RoundTrip (callN (WithMockResponses ⟨[], 0, ht⟩ rs) k)).2).responses
          = rs) ∧
    (rs.length ≤ k →
      (RoundTrip (callN (WithMockResponses ⟨[], 0, ht⟩ rs) k)).1.response
          = none ∧
      (RoundTrip (callN (WithMockResponses ⟨[], 0, ht⟩ rs) k)).1.err
          = some ErrNoMockResponse ∧
      (RoundTrip (callN (WithMockResponses ⟨[], 0, ht⟩ rs) k)).2
          = callN (WithMockResponses ⟨[], 0, ht⟩ rs) k) := by
  have hW : WithMockResponses (⟨[], 0, ht⟩ : TestingRoundTripper R) rs
      = ⟨rs, 0, ht⟩ := rfl
  rw [hW]
  obtain ⟨hr, hT, hi⟩ := callN_state rs ht k
  constructor
  · intro hk
    have hidx : (callN (⟨rs, 0, ht⟩ : TestingRoundTripper R) k).index = k := by
      rw [hi]; omega
    have hlt : (callN (⟨rs, 0, ht⟩ : TestingRoundTripper R) k).index <
        (callN (⟨rs, 0, ht⟩ : TestingRoundTripper R) k).responses.length := by
      rw [hidx, hr]; exact hk
    rw [RoundTrip_hit _ hlt]
    refine ⟨?_, rfl, rfl, ?_⟩
    · simp only
      rw [hr, hidx]
    · simp only
      exact hr
  · intro hk
    have hge : (callN (⟨rs, 0, ht⟩ : TestingRoundTripper R) k).responses.length
        ≤ (callN (⟨rs, 0, ht⟩ : TestingRoundTripper R) k).index := by
      rw [hi, hr]; omega
    rw [RoundTrip_miss _ hge]
    exact ⟨rfl, rfl, rfl⟩

theorem C10_witness :
    (RoundTrip (callN
        (WithMockResponses (⟨[], 0, false⟩ : TestingRoundTripper Nat)
          [10, 20]) 0)).1.response = [10, 20].get? 0 ∧
    (RoundTrip (callN
        (WithMockResponses (⟨[], 0, false⟩ : TestingRoundTripper Nat)
          [10, 20]) 0)).1.err = none ∧
    ((RoundTrip (callN
        (WithMockResponses (⟨[], 0, false⟩ : TestingRoundTripper Nat)
          [10, 20]) 0)).2).index
        = (callN (WithMockResponses (⟨[], 0, false⟩ : TestingRoundTripper Nat)
          [10, 20]) 0).index + 1 ∧
    ((RoundTrip (callN
        (WithMockResponses (⟨[], 0, false⟩ : TestingRoundTripper Nat)
          [10, 20]) 0)).2).responses = [10, 20] :=
  (C10_roundtrip_replay [10, 20] false 0).1 (by decide)
